import Mathlib

/-!
Verification development for the DNA2Diet genetic risk scoring pipeline.

The definitions below are a shallow embedding of the Python sources
`diseaseEstimation.py`, `disease_final.py`, `processing/disease_estimator.py`
and `processing/disease_finalizer.py`:

* Python strings are modelled as `String` or `List Char`;
* missing values (`None` / `NaN`) are modelled as `Option`;
* Python floats are modelled as real numbers (`ℝ`) in the estimation stage
  and as rationals (`ℚ`) in the finalization stage, where only order and
  field operations occur;
* the pseudo-random genotype draws of the Monte-Carlo simulation are passed
  in explicitly as a function from (SNP index, trial index) to a genotype
  count in `Fin 3`;
* code that can raise (missing columns, out-of-bounds indexing) returns
  `Except String`.
-/

namespace DNA2Diet

/-! ## Genotype parsing and dosage
Embedding of `dosage_from_genotype` (diseaseEstimation.py lines 86-95;
identical in processing/disease_estimator.py lines 68-77). -/

/-- Embedding of Python `str.split("/")` on a list of characters:
splits at every slash, keeping empty segments, and returns `[[]]` on the
empty string (Python returns `[""]`). -/
def splitSlash : List Char → List (List Char)
  | [] => [[]]
  | c :: rest =>
    if c = '/' then [] :: splitSlash rest
    else
      match splitSlash rest with
      | [] => [[c]]
      | p :: ps => (c :: p) :: ps

/-- Embedding of `str(geno).upper().replace("|","/").replace(" ", "")`:
uppercase every character, turn pipes into slashes, drop spaces. -/
def normalizeGeno (g : List Char) : List Char :=
  (((g.map Char.toUpper).map fun c => if c = '|' then '/' else c).filter
    fun c => c ≠ ' ')

/-- Embedding of `dosage_from_genotype(geno, allele)`:
`NaN` inputs become `none`; otherwise the genotype string is normalized and
the parsed risk allele (a single character, as produced by
`parse_risk_allele_field`) is counted, by slash-separated parts when a slash
is present, by characters when the string has length two, and by substring
count otherwise. -/
def dosage_from_genotype (geno : Option (List Char)) (allele : Option Char) :
    Option ℕ :=
  match geno, allele with
  | some g0, some a =>
    let g := normalizeGeno g0
    if '/' ∈ g then
      some ((splitSlash g).countP fun p => p = [a])
    else if g.length = 2 then
      some (g.countP fun c => c = a)
    else
      some (g.count a)
  | _, _ => none

/-- A character that survives genotype normalization unchanged and does not
act as a separator: its uppercase form is not a slash, pipe or space. -/
def plainGenoChar (c : Char) : Prop :=
  c.toUpper ≠ '/' ∧ c.toUpper ≠ '|' ∧ c.toUpper ≠ ' '

instance (c : Char) : Decidable (plainGenoChar c) := by
  unfold plainGenoChar; infer_instance

/-! ## Effect normalization
Embedding of `to_log_or_safe` (diseaseEstimation.py lines 97-103) and of the
global effect-type inference plus normalization (lines 185-193; identical in
processing/disease_estimator.py lines 136-143).  `pd.to_numeric(...,
errors='coerce')` has already turned each raw effect cell into `Option ℝ`
(`none` = NaN/unparseable). -/

/-- Embedding of `to_log_or_safe`: NaN stays NaN (`none ↦ none`), values
`≤ 0` become NaN, positive values are replaced by their natural log. -/
noncomputable def to_log_or_safe (x : Option ℝ) : Option ℝ :=
  match x with
  | none => none
  | some v => if v ≤ 0 then none else some (Real.log v)

/-- Embedding of the global effect-type heuristic: if any parsed effect in
the whole dataset is negative the data is treated as betas and kept as-is,
otherwise every value is log-transformed by `to_log_or_safe`. -/
noncomputable def normalizeEffects (raws : List (Option ℝ)) : List (Option ℝ) :=
  if raws.any fun o => (match o with | some v => decide (v < 0) | none => false) then
    raws
  else
    raws.map to_log_or_safe

/-! ## Per-trait estimation
Embedding of the trait loop of `main` (diseaseEstimation.py lines 210-332;
identical in processing/disease_estimator.py lines 155-286).  A `ProcRow`
is one row of `df_proc` after column parsing: its trait cell, computed
dosage, normalized effect and parsed risk-allele frequency. -/

structure ProcRow where
  trait : Option String
  dosage : Option ℝ
  effect : Option ℝ
  raf : Option ℝ

/-- Rows of one trait: `df_proc[df_proc[trait_col] == trait]`. -/
def traitRows (rows : List ProcRow) (t : String) : List ProcRow :=
  rows.filter fun r => decide (r.trait = some t)

/-- Rows of one trait that survive `sub.dropna(subset=['effect'])`. -/
def usableRows (rows : List ProcRow) (t : String) : List ProcRow :=
  (traitRows rows t).filter fun r => r.effect.isSome

/-- Rows of one trait that survive `sub.dropna(subset=['raf','effect'])`. -/
def simRows (rows : List ProcRow) (t : String) : List ProcRow :=
  (usableRows rows t).filter fun r => r.raf.isSome && r.effect.isSome

/-- Observed PRS: `(sub['dosage'].fillna(0) * sub['effect']).sum()`. -/
noncomputable def observedPRS (sub : List ProcRow) : ℝ :=
  (sub.map fun r => r.dosage.getD 0 * r.effect.getD 0).sum

/-- Monte-Carlo score vector: trial `j` accumulates `draws i j * effect i`
over the contributing SNPs `i`, exactly like the per-SNP loop adding
`draws * ef` into `sim_prs`.  The pseudo-random Hardy-Weinberg genotype
draws of `rng.choice([0,1,2], ...)` enter as the explicit function
`draws`. -/
noncomputable def simScores (nSim : ℕ) (draws : ℕ → ℕ → Fin 3)
    (effs : List ℝ) : List ℝ :=
  (List.range nSim).map fun j =>
    (effs.enum.map fun p => ((draws p.1 j : ℕ) : ℝ) * p.2).sum

/-- Embedding of `np.mean`. -/
noncomputable def listMean (xs : List ℝ) : ℝ := xs.sum / xs.length

/-- Embedding of `np.std(ddof=1)`: Bessel-corrected sample standard
deviation. -/
noncomputable def listSd (xs : List ℝ) : ℝ :=
  Real.sqrt ((xs.map fun x => (x - listMean xs) ^ 2).sum / ((xs.length : ℝ) - 1))

/-- Embedding of `100.0 * np.mean(sim_prs < prs_indiv)`: 100 times the
fraction of simulated trials strictly below the observed score. -/
noncomputable def percentileVal (xs : List ℝ) (obs : ℝ) : ℝ :=
  100 * ((xs.countP fun x => decide (x < obs) : ℕ) : ℝ) / (xs.length : ℝ)

/-- Embedding of the absolute-probability conversion (diseaseEstimation.py
lines 275-280): defined only for a resolved prevalence strictly between 0
and 1; `prevVal = none` covers both a missing and a NaN prevalence. -/
noncomputable def absoluteProbability (prevVal : Option ℝ) (prs : ℝ) : Option ℝ :=
  match prevVal with
  | none => none
  | some p =>
    if 0 < p ∧ p < 1 then
      let post := p / (1 - p) * Real.exp prs
      some (post / (1 + post))
    else none

/-- Embedding of the interpretation tiers (diseaseEstimation.py lines
298-315); the thresholds ABS_PROB_HIGH = 0.20 and ABS_PROB_MODERATE = 0.05
are the rationals 1/5 and 1/20. -/
noncomputable def interpretationOf (absProb : Option ℝ) (pct : Option ℝ) : String :=
  match absProb with
  | some ap =>
    if ap ≥ (1 / 5 : ℝ) then "high_absolute_risk"
    else if ap ≥ (1 / 20 : ℝ) then "moderate_absolute_risk"
    else "low_absolute_risk"
  | none =>
    match pct with
    | some p =>
      if p ≥ 90 then "high_percentile_risk"
      else if p ≥ 75 then "moderate_percentile_risk"
      else "low_percentile_risk"
    | none => "unknown"

/-- Embedding of the confidence downgrade rules (diseaseEstimation.py lines
282-296).  `int(0.5 * n_snps)` is floor division by two. -/
def confidenceFlag (nSnps nSimUsed : ℕ) (hasPrev : Bool) : String × List String :=
  let c0 := "high"
  let r0 : List String := []
  let c1 := if nSnps < 5 then "low" else c0
  let r1 := if nSnps < 5 then r0 ++ ["few_snps"] else r0
  let c2 :=
    if nSimUsed < max 3 (nSnps / 2) then (if c1 ≠ "low" then "medium" else c1) else c1
  let r2 := if nSimUsed < max 3 (nSnps / 2) then r1 ++ ["few_sim_snps"] else r1
  let c3 := if !hasPrev then (if c2 = "high" then "medium" else c2) else c2
  let r3 := if !hasPrev then r2 ++ ["no_prevalence"] else r2
  (c3, r3)

/-- One Trait Risk Result, the record appended to `results` per trait. -/
structure TraitResult where
  trait : String
  n_SNPs : ℕ
  n_with_genotype : ℕ
  n_sim_used : ℕ
  PRS_indiv : ℝ
  sim_mean : Option ℝ
  sim_sd : Option ℝ
  percentile : Option ℝ
  zscore : Option ℝ
  prevalence_used : Option ℝ
  absolute_probability : Option ℝ
  interpretation : String
  confidence : String
  confidence_reasons : List String

/-- The record built by the body of the trait loop, given the trait's rows
`sub` after the effect dropna.  `prev` is the trait's resolved prevalence
(the nested-JSON traversal is modelled by this already-resolved value). -/
noncomputable def mkResult (nSim : ℕ) (draws : ℕ → ℕ → Fin 3) (prev : Option ℝ)
    (t : String) (sub : List ProcRow) : TraitResult :=
  let prs := observedPRS sub
  let simSub := sub.filter fun r => r.raf.isSome && r.effect.isSome
  let scores := simScores nSim draws (simSub.map fun r => r.effect.getD 0)
  let absProb := absoluteProbability prev prs
  let pctO : Option ℝ :=
    if simSub.isEmpty then none else some (percentileVal scores prs)
  let simUsed : ℕ := if simSub.isEmpty then 0 else simSub.length
  { trait := t
    n_SNPs := sub.length
    n_with_genotype := sub.countP fun r => r.dosage.isSome
    n_sim_used := simUsed
    PRS_indiv := prs
    sim_mean := if simSub.isEmpty then none else some (listMean scores)
    sim_sd := if simSub.isEmpty then none else some (listSd scores)
    percentile := pctO
    zscore :=
      if simSub.isEmpty then none
      else if listSd scores > 0 then some ((prs - listMean scores) / listSd scores)
      else none
    prevalence_used := prev
    absolute_probability := absProb
    interpretation := interpretationOf absProb pctO
    confidence := (confidenceFlag sub.length simUsed prev.isSome).1
    confidence_reasons := (confidenceFlag sub.length simUsed prev.isSome).2 }

/-- Per-trait step of the loop: a trait whose rows all lack a normalized
effect is skipped (`continue`), otherwise exactly one result is built. -/
noncomputable def estimateTrait (nSim : ℕ) (draws : ℕ → ℕ → Fin 3)
    (prev : Option ℝ) (rows : List ProcRow) (t : String) : Option TraitResult :=
  if (usableRows rows t).isEmpty then none
  else some (mkResult nSim draws prev t (usableRows rows t))

/-- The distinct non-null trait values,
`df_proc[trait_col].dropna().unique()`.  The source also sorts this list;
sorting only permutes the output order and is irrelevant to the claims, so
first-occurrence order is kept here. -/
def distinctTraits (rows : List ProcRow) : List String :=
  (rows.filterMap ProcRow.trait).dedup

/-- The whole trait loop: one optional result per distinct trait.  The
per-trait pseudo-random streams and resolved prevalences enter as the
functions `draws` and `prev`. -/
noncomputable def estimateAll (nSim : ℕ) (draws : String → ℕ → ℕ → Fin 3)
    (prev : String → Option ℝ) (rows : List ProcRow) : List TraitResult :=
  (distinctTraits rows).filterMap fun t => estimateTrait nSim (draws t) (prev t) rows t

/-! ## Column detection
Embedding of the column-discovery phase of `main` (diseaseEstimation.py
lines 117-176), which aborts with `SystemExit` before any trait is
processed when the genotype, risk-allele, effect or trait column cannot be
found. -/

/-- Lowercased character list of a string (Python `str.lower()`; the column
names are ASCII). -/
def lcList (s : String) : List Char := s.toList.map Char.toLower

/-- Boolean test that a list of characters starts with another. -/
def startsWithSeq : List Char → List Char → Bool
  | [], _ => true
  | _ :: _, [] => false
  | a :: as, b :: bs => a == b && startsWithSeq as bs

/-- Boolean substring test on character lists (Python `needle in hay`). -/
def containsSeq (needle : List Char) : List Char → Bool
  | [] => needle.isEmpty
  | c :: rest => startsWithSeq needle (c :: rest) || containsSeq needle rest

/-- Test that the lowercased column name `s` contains `sub` (Python
`sub in s.lower()` for a lowercase literal `sub`). -/
def strHas (sub : String) (s : String) : Bool := containsSeq sub.toList (lcList s)

/-- Genotype column: a column named exactly "genotype" (case-insensitive),
else the first column containing "geno". -/
def detectGenotypeCol (cols : List String) : Option String :=
  match cols.find? fun c => decide (lcList c = "genotype".toList) with
  | some c => some c
  | none => cols.find? fun c => strHas "geno" c

/-- Risk-allele column: first column containing "strongest" and "allele",
else first containing "risk" and "allele". -/
def detectRiskAlleleCol (cols : List String) : Option String :=
  match cols.find? fun c => strHas "strongest" c && strHas "allele" c with
  | some c => some c
  | none => cols.find? fun c => strHas "risk" c && strHas "allele" c

/-- Explicitly preferred effect column names, in order. -/
def EFFECT_CHOICES : List String :=
  ["OR or BETA", "OR", "BETA", "OR_OR_BETA", "OR or BETA "]

/-- Effect column: first explicitly named choice present among the columns,
else the fallback search for any column containing "or" or "beta". -/
def detectEffectCol (cols : List String) : Option String :=
  match EFFECT_CHOICES.find? fun ch => cols.contains ch with
  | some ch => some ch
  | none => cols.find? fun c => strHas "or" c || strHas "beta" c

/-- Trait column: MESH_TERM when present with any non-null value (the flag
`meshNonEmpty`), else MAPPED_TRAIT, else the first column containing
"trait" or "disease". -/
def detectTraitCol (cols : List String) (meshNonEmpty : Bool) : Option String :=
  if cols.contains "MESH_TERM" && meshNonEmpty then some "MESH_TERM"
  else if cols.contains "MAPPED_TRAIT" then some "MAPPED_TRAIT"
  else
    match cols.filter fun c => strHas "trait" c || strHas "disease" c with
    | [] => none
    | c :: _ => some c

/-- The estimation run: the four detection steps in source order, each
aborting the run (`SystemExit`, modelled as `Except.error`) before any
trait is processed; on success the trait loop runs on the parsed rows
(row parsing itself is outside the detection claims and is abstracted by
passing the already-parsed `rows`). -/
noncomputable def runEstimation (cols : List String) (meshNonEmpty : Bool)
    (nSim : ℕ) (draws : String → ℕ → ℕ → Fin 3) (prev : String → Option ℝ)
    (rows : List ProcRow) : Except String (List TraitResult) :=
  match detectGenotypeCol cols with
  | none => Except.error "No genotype column found in CSV."
  | some _ =>
    match detectRiskAlleleCol cols with
    | none => Except.error "No risk-allele column found in CSV."
    | some _ =>
      match detectEffectCol cols with
      | none => Except.error "Could not find effect column (OR or BETA)."
      | some _ =>
        match detectTraitCol cols meshNonEmpty with
        | none => Except.error "No trait column found."
        | some _ => Except.ok (estimateAll nSim draws prev rows)

/-! ## Disease keyword filter and finalization
Embedding of `trait_is_disease` (diseaseEstimation.py lines 61-70), the
disease-likeness filter (lines 349-351), and of `finalize_diseases`
(processing/disease_finalizer.py; identical logic in disease_final.py).
The finalization stage re-reads its numbers from CSV text; its float
values are modelled as rationals, over which all its comparisons and
arithmetic are exact. -/

/-- Conservative disease-keyword list, verbatim from the source (already
lowercase; the duplicate "cancer" is kept). -/
def DISEASE_KEYWORDS : List String :=
  ["disease", "disorder", "syndrome", "cancer", "carcinoma", "tumor", "tumour",
   "diabetes", "hypertension", "stroke", "cardio", "heart", "myocardial",
   "coronary", "gout", "nephropathy", "kidney", "renal", "arthrit", "alzheim",
   "dementia", "asthma", "copd", "chronic kidney", "non-alcoholic", "nafld",
   "liver", "hepatitis", "migraine", "schizophrenia", "depress", "bipolar",
   "psych", "epilep", "autism", "parkinson", "glaucoma", "retinopathy",
   "obesity", "cancer", "pulmonary", "hypertensi", "ischemic", "ischaemic"]

/-- Characters kept by the normalization regex class `[a-z0-9 ]`. -/
def goodTraitChar (c : Char) : Bool :=
  (decide ('a' ≤ c) && decide (c ≤ 'z')) ||
    (decide ('0' ≤ c) && decide (c ≤ '9')) || c == ' '

/-- Scan for `collapseRuns`; the flag records whether the previous
character belonged to a run of characters outside `[a-z0-9 ]`, whose first
character has already emitted the single replacement space. -/
def collapseAux : Bool → List Char → List Char
  | _, [] => []
  | inBad, c :: rest =>
    if goodTraitChar c then c :: collapseAux false rest
    else if inBad then collapseAux true rest
    else ' ' :: collapseAux true rest

/-- Embedding of `re.sub(r'[^a-z0-9 ]+', ' ', s)`: every maximal run of
characters outside `[a-z0-9 ]` becomes a single space. -/
def collapseRuns (l : List Char) : List Char := collapseAux false l

/-- Embedding of `str.strip()` (after normalization only spaces remain). -/
def stripSpaces (l : List Char) : List Char :=
  ((l.dropWhile fun c => c == ' ').reverse.dropWhile fun c => c == ' ').reverse

/-- Embedding of `normalize_trait`: NaN becomes "", otherwise lowercase,
collapse non-alphanumeric runs to single spaces and strip. -/
def normalize_trait (t : Option String) : List Char :=
  match t with
  | none => []
  | some s => stripSpaces (collapseRuns (s.toList.map Char.toLower))

/-- Embedding of `trait_is_disease`: some keyword is a substring of the
normalized trait name. -/
def trait_is_disease (t : Option String) : Bool :=
  DISEASE_KEYWORDS.any fun kw => containsSeq kw.toList (normalize_trait t)

/-- Keyword matching as the claim C7 words it ("case-insensitive substring
match" on the trait name).  Stated from the claim text, for comparison with
the source's `trait_is_disease`, which matches on the punctuation-collapsed
normalized name instead. -/
def claimKeywordMatch (t : String) : Bool :=
  DISEASE_KEYWORDS.any fun kw => containsSeq kw.toList (t.toList.map Char.toLower)

/-- One row of the disease-candidates table as re-read by the finalizer:
the fields its filter and score consume. -/
structure CandRow where
  trait : String
  percentile : Option ℚ
  absolute_probability : Option ℚ
  interpretation : String
deriving DecidableEq

/-- Verbatim INTERPRET_KEEP set from the finalizer. -/
def INTERPRET_KEEP : List String :=
  ["high_absolute_risk", "high_percentile_risk",
   "moderate_absolute_risk", "moderate_percentile_risk"]

/-- Embedding of the finalizer's selection mask: interpretation in the keep
set (case-insensitive), or `percentile.fillna(-1) >= 75`, or
`absolute_probability.fillna(0) >= 0.05`. -/
def keepRow (r : CandRow) : Bool :=
  (INTERPRET_KEEP.map String.toLower).contains r.interpretation.toLower
    || decide (r.percentile.getD (-1) ≥ (75 : ℚ))
    || decide (r.absolute_probability.getD 0 ≥ (1 / 20 : ℚ))

/-- Embedding of the estimator's final keyword filter
`res_df[res_df['is_disease_like']]` (the estimator also sorts this table by
absolute probability, which only permutes rows and is dropped here). -/
def diseaseCandidates (results : List CandRow) : List CandRow :=
  results.filter fun r => trait_is_disease (some r.trait)

/-- Embedding of `selected = df[mask]` in the finalizer. -/
def selectedRows (cands : List CandRow) : List CandRow :=
  cands.filter keepRow

/-- Embedding of `score_row`: nulls default to percentile 50 and absolute
probability 0. -/
def score_row (r : CandRow) : ℚ :=
  (r.percentile.getD 50 - 50) / 10 + 10 * r.absolute_probability.getD 0

/-- One row of the ranked output: the candidate row it came from, its
composite risk score, and its 1-based rank. -/
structure RankedEntry where
  row : CandRow
  risk_score : ℚ
  rank : ℕ

/-- Embedding of the score-sort-rank step of the finalizer: score every
selected row, sort descending by score, assign ranks `1..N` by position
(`np.arange(1, len+1)`). -/
def rankDiseases (selected : List CandRow) : List RankedEntry :=
  (((selected.map fun r => (r, score_row r)).mergeSort
      fun a b => decide (b.2 ≤ a.2)).enum).map
    fun p => { row := p.2.1, risk_score := p.2.2, rank := p.1 + 1 }

/-- One re-joined SNP row as consumed by the mesh-id extraction: only its
MESH_ID cell matters there (`none` = NaN). -/
structure SnpRow where
  rsid : Option String
  meshId : Option String

/-- Embedding of
`sub[mesh_col].dropna().unique()[0] if mesh_col and not sub.empty else None`
over the retained top-effect SNP rows `sub`: indexing position 0 of the
deduplicated non-null values raises IndexError when every value is null
(`unique()` keeps first-occurrence order, so position 0 is the first
non-null value). -/
def meshFromSub (meshColPresent : Bool) (sub : List SnpRow) :
    Except String (Option String) :=
  if meshColPresent && !sub.isEmpty then
    match sub.filterMap SnpRow.meshId with
    | [] => Except.error "IndexError: index 0 is out of bounds for axis 0 with size 0"
    | m :: _ => Except.ok (some m)
  else Except.ok none

/-- The finalizer's per-selected-trait loop, keeping the part the claim is
about: each iteration extracts the mesh id from that trait's retained
top-effect SNP rows (`subFor`), and an exception in any iteration aborts
the whole run. -/
def finalizeEntries (meshColPresent : Bool) (subFor : CandRow → List SnpRow) :
    List CandRow → Except String (List (CandRow × Option String))
  | [] => Except.ok []
  | r :: rest =>
    match meshFromSub meshColPresent (subFor r) with
    | Except.error e => Except.error e
    | Except.ok m =>
      match finalizeEntries meshColPresent subFor rest with
      | Except.error e => Except.error e
      | Except.ok out => Except.ok ((r, m) :: out)

/-! ## Concrete data for witnesses and counterexamples -/

/-- One-trait, one-row table used by the C1 witness. -/
noncomputable def rowsW1 : List ProcRow :=
  [{ trait := some "gout", dosage := some 2, effect := some 1, raf := none }]

/-- One-trait table with a usable allele frequency, used by the C2 witness. -/
noncomputable def rowsW2 : List ProcRow :=
  [{ trait := some "gout", dosage := some 2, effect := some 1, raf := some (1 / 2) }]

/-- Candidate row named after no disease keyword but with percentile 99. -/
def candNonDisease : CandRow :=
  { trait := "Non-alcoholic", percentile := some 99,
    absolute_probability := none, interpretation := "unknown" }

/-- Header list that lacks all three named effect columns yet passes the
fallback effect-column search via "REPORTED GENE(S)". -/
def colsNoEffect : List String :=
  ["genotype", "STRONGEST SNP-RISK ALLELE", "REPORTED GENE(S)", "MESH_TERM"]

/-- Candidate row for the C10 witness. -/
def candW10 : CandRow :=
  { trait := "gout", percentile := some 99,
    absolute_probability := none, interpretation := "unknown" }

/-- Retained SNP row with a null MESH_ID, for the C10 witness. -/
def snpW10 : SnpRow := { rsid := some "rs1", meshId := none }

/-! ## Theorems -/

example : dosage_from_genotype (some "AA".toList) (some 'A') = some 2 := by decide
example : dosage_from_genotype (some "A/T".toList) (some 'A') = some 1 := by decide
example : dosage_from_genotype (some "a|t".toList) (some 'T') = some 1 := by decide
example : dosage_from_genotype (some "AAA".toList) (some 'A') = some 3 := by decide

lemma normalizeGeno_slash_pair (x y : Char) (hx : plainGenoChar x)
    (hy : plainGenoChar y) :
    normalizeGeno [x, '/', y] = [x.toUpper, '/', y.toUpper] := by
  obtain ⟨-, hx2, hx3⟩ := hx
  obtain ⟨-, hy2, hy3⟩ := hy
  simp [normalizeGeno, hx2, hy2, hx3, hy3]

lemma normalizeGeno_bare_pair (x y : Char) (hx : plainGenoChar x)
    (hy : plainGenoChar y) :
    normalizeGeno [x, y] = [x.toUpper, y.toUpper] := by
  obtain ⟨-, hx2, hx3⟩ := hx
  obtain ⟨-, hy2, hy3⟩ := hy
  simp [normalizeGeno, hx2, hy2, hx3, hy3]

lemma splitSlash_pair (x y : Char) (hx : x ≠ '/') (hy : y ≠ '/') :
    splitSlash [x, '/', y] = [[x], [y]] := by
  simp [splitSlash, hx, hy]

/-- Claim C5, amended.  For every genotype/allele pair the computed dosage
is a natural number that is `none` exactly when the genotype or the parsed
risk allele is missing; slash-delimited pairs and bare two-character pairs
yield identical dosages (after uppercasing and stripping pipes/whitespace),
and on such two-allele genotypes the dosage is at most 2.  (The unamended
claim that every dosage lies in {0,1,2,null} fails on longer genotype
strings, see the counterexample.) -/
theorem dosage_domain_amended (g : Option (List Char)) (a : Option Char) :
    (dosage_from_genotype g a = none ↔ g = none ∨ a = none) ∧
    (∀ x y r : Char, plainGenoChar x → plainGenoChar y →
      dosage_from_genotype (some [x, '/', y]) (some r) =
        dosage_from_genotype (some [x, y]) (some r) ∧
      ∃ k, k ≤ 2 ∧ dosage_from_genotype (some [x, y]) (some r) = some k) := by
  constructor
  · cases g with
    | none => simp [dosage_from_genotype]
    | some gs =>
      cases a with
      | none => simp [dosage_from_genotype]
      | some c =>
        simp only [dosage_from_genotype]
        split <;> simp
        split <;> simp
  · intro x y r hx hy
    have hxs : x.toUpper ≠ '/' := hx.1
    have hys : y.toUpper ≠ '/' := hy.1
    have hnot : ¬('/' ∈ [x.toUpper, y.toUpper]) := by
      intro hm
      rcases List.mem_cons.mp hm with h | hm2
      · exact hxs h.symm
      · rcases List.mem_cons.mp hm2 with h | hm3
        · exact hys h.symm
        · exact absurd hm3 (List.not_mem_nil _)
    have e1 : dosage_from_genotype (some [x, '/', y]) (some r) =
        some ((splitSlash [x.toUpper, '/', y.toUpper]).countP fun p => p = [r]) := by
      simp only [dosage_from_genotype, normalizeGeno_slash_pair x y hx hy]
      rw [if_pos (by simp)]
    have e3 : dosage_from_genotype (some [x, y]) (some r) =
        some (([x.toUpper, y.toUpper]).countP fun c => c = r) := by
      simp only [dosage_from_genotype, normalizeGeno_bare_pair x y hx hy]
      rw [if_neg hnot]
      simp
    refine ⟨?_, ?_⟩
    · rw [e1, splitSlash_pair _ _ hxs hys, e3]
      simp [List.countP_cons]
    · refine ⟨([x.toUpper, y.toUpper]).countP fun c => c = r, ?_, e3⟩
      simpa using List.countP_le_length (l := [x.toUpper, y.toUpper]) fun c => c = r

/-- Witness for the amended claim C5 at a concrete genotype. -/
theorem dosage_domain_amended_witness :
    dosage_from_genotype (some ['A', '/', 'T']) (some 'A') =
      dosage_from_genotype (some ['A', 'T']) (some 'A') ∧
    ∃ k, k ≤ 2 ∧ dosage_from_genotype (some ['A', 'T']) (some 'A') = some k :=
  (dosage_domain_amended (some ['A', 'T']) (some 'A')).2 'A' 'T' 'A'
    (by decide) (by decide)

/-- Counterexample to claim C5 as stated: the three-character genotype
"AAA" with risk allele 'A' yields dosage 3, which is not in {0,1,2}. -/
theorem dosage_counterexample :
    dosage_from_genotype (some ['A', 'A', 'A']) (some 'A') = some 3 ∧
    (3 : ℕ) ∉ ([0, 1, 2] : List ℕ) := by decide

/-- Claim C4.  The effect-type choice is a single global decision: if any
parsed effect anywhere in the dataset is negative every normalized effect
is the raw value, otherwise every value passes through `to_log_or_safe`,
which maps positive values to their natural log and non-positive or
missing values to null. -/
theorem effect_normalization_global (raws : List (Option ℝ)) :
    ((∃ v, some v ∈ raws ∧ v < 0) → normalizeEffects raws = raws) ∧
    ((∀ v, some v ∈ raws → 0 ≤ v) → normalizeEffects raws = raws.map to_log_or_safe) ∧
    (∀ v : ℝ, 0 < v → to_log_or_safe (some v) = some (Real.log v)) ∧
    (∀ v : ℝ, v ≤ 0 → to_log_or_safe (some v) = none) ∧
    to_log_or_safe none = none := by
  refine ⟨?_, ?_, ?_, ?_, rfl⟩
  · rintro ⟨v, hv, hneg⟩
    rw [normalizeEffects, if_pos]
    rw [List.any_eq_true]
    exact ⟨some v, hv, by simp [hneg]⟩
  · intro hall
    rw [normalizeEffects, if_neg]
    rw [List.any_eq_true]
    rintro ⟨o, ho, hneg⟩
    cases o with
    | none => simp at hneg
    | some v =>
      simp only [decide_eq_true_eq] at hneg
      exact absurd (hall v ho) (not_le.mpr hneg)
  · intro v hv
    simp [to_log_or_safe, not_le.mpr hv]
  · intro v hv
    simp [to_log_or_safe, hv]

/-- Witness for claim C4: a dataset containing the negative effect -1 is
passed through unchanged. -/
theorem effect_normalization_global_witness :
    normalizeEffects [some (-1 : ℝ), some 2] = [some (-1 : ℝ), some 2] :=
  (effect_normalization_global [some (-1 : ℝ), some 2]).1
    ⟨-1, by simp, by norm_num⟩

/-- Claim C3.  The absolute probability is defined exactly when the
resolved prevalence lies strictly between 0 and 1; in that case it equals
posterior odds over one plus posterior odds, with posterior odds equal to
baseline odds times the exponential of the observed PRS, and every defined
value lies strictly in (0,1). -/
theorem absolute_probability_spec (prevVal : Option ℝ) (prs : ℝ) :
    ((absoluteProbability prevVal prs).isSome ↔
      ∃ p, prevVal = some p ∧ 0 < p ∧ p < 1) ∧
    (∀ p, prevVal = some p → 0 < p → p < 1 →
      absoluteProbability prevVal prs =
        some (p / (1 - p) * Real.exp prs / (1 + p / (1 - p) * Real.exp prs))) ∧
    (∀ x, absoluteProbability prevVal prs = some x → 0 < x ∧ x < 1) := by
  have hpost : ∀ p : ℝ, 0 < p → p < 1 → 0 < p / (1 - p) * Real.exp prs := by
    intro p h0 h1
    have h1p : (0 : ℝ) < 1 - p := by linarith
    positivity
  refine ⟨?_, ?_, ?_⟩
  · cases prevVal with
    | none => simp [absoluteProbability]
    | some p =>
      by_cases h : 0 < p ∧ p < 1
      · simp only [absoluteProbability, if_pos h, Option.isSome_some]
        exact ⟨fun _ => ⟨p, rfl, h.1, h.2⟩, fun _ => trivial⟩
      · simp only [absoluteProbability, if_neg h, Option.isSome_none]
        constructor
        · intro hfalse; cases hfalse
        · rintro ⟨p', hp', h0, h1⟩
          cases Option.some.inj hp'
          exact absurd ⟨h0, h1⟩ h
  · intro p hp h0 h1
    subst hp
    simp only [absoluteProbability]
    rw [if_pos (show 0 < p ∧ p < 1 from ⟨h0, h1⟩)]
  · intro x hx
    cases prevVal with
    | none => simp [absoluteProbability] at hx
    | some p =>
      simp only [absoluteProbability] at hx
      by_cases h : 0 < p ∧ p < 1
      · rw [if_pos h] at hx
        have hx2 := (Option.some.inj hx).symm
        have hp := hpost p h.1 h.2
        subst hx2
        constructor
        · positivity
        · rw [div_lt_one (by linarith)]
          linarith
      · rw [if_neg h] at hx
        cases hx

/-- Witness for claim C3 with prevalence one half and PRS zero. -/
theorem absolute_probability_witness :
    absoluteProbability (some (1 / 2 : ℝ)) 0 =
      some ((1 / 2 : ℝ) / (1 - 1 / 2) * Real.exp 0 /
        (1 + (1 / 2 : ℝ) / (1 - 1 / 2) * Real.exp 0)) :=
  (absolute_probability_spec (some (1 / 2 : ℝ)) 0).2.1 (1 / 2) rfl
    one_half_pos one_half_lt_one

/-- Claim C6.  The sequential confidence downgrades are equivalent to this
closed form: under five SNPs forces "low" with reason "few_snps"; otherwise
a short simulation or a missing prevalence gives "medium"; otherwise
"high".  The reasons accumulate in the order few_snps, few_sim_snps,
no_prevalence. -/
theorem confidence_downgrade_rules (n s : ℕ) (p : Bool) :
    confidenceFlag n s p =
      ((if n < 5 then "low"
        else if s < max 3 (n / 2) ∨ p = false then "medium" else "high"),
       (if n < 5 then ["few_snps"] else []) ++
         (if s < max 3 (n / 2) then ["few_sim_snps"] else []) ++
         (if p = false then ["no_prevalence"] else [])) := by
  by_cases h1 : n < 5 <;> by_cases h2 : s < max 3 (n / 2) <;> cases p <;>
    simp +decide [confidenceFlag, h1, h2]

lemma mkResult_trait (nSim : ℕ) (draws : ℕ → ℕ → Fin 3) (prev : Option ℝ)
    (t : String) (sub : List ProcRow) : (mkResult nSim draws prev t sub).trait = t := rfl

lemma estimateTrait_some_iff (nSim : ℕ) (draws : ℕ → ℕ → Fin 3) (prev : Option ℝ)
    (rows : List ProcRow) (t : String) (res : TraitResult) :
    estimateTrait nSim draws prev rows t = some res ↔
      usableRows rows t ≠ [] ∧ res = mkResult nSim draws prev t (usableRows rows t) := by
  rw [estimateTrait]
  by_cases h : (usableRows rows t).isEmpty
  · rw [if_pos h]
    simp [List.isEmpty_iff.mp h]
  · rw [if_neg h]
    have hne : usableRows rows t ≠ [] := by
      intro he
      exact h (by simp [he])
    simp [hne, eq_comm]

lemma filterMap_filter_trait (g : String → Option TraitResult)
    (hg : ∀ t r, g t = some r → r.trait = t) :
    ∀ l : List String, l.Nodup → ∀ t : String,
      (l.filterMap g).filter (fun r => decide (r.trait = t)) =
        if t ∈ l then (g t).toList else [] := by
  intro l
  induction l with
  | nil => intro _ t; simp
  | cons a l ih =>
    intro hnd t
    obtain ⟨ha, hnd2⟩ := List.nodup_cons.mp hnd
    rw [List.filterMap_cons]
    cases hga : g a with
    | none =>
      rw [ih hnd2 t]
      by_cases hta : t = a
      · subst hta
        rw [if_neg ha, if_pos (List.mem_cons_self t l)]
        simp [hga]
      · simp [List.mem_cons, hta]
    | some r =>
      have hr : r.trait = a := hg a r hga
      rw [List.filter_cons]
      by_cases hta : t = a
      · subst hta
        rw [if_pos (by simp [hr]), ih hnd2 t, if_neg ha,
          if_pos (List.mem_cons_self t l)]
        simp [hga]
      · rw [if_neg (by simp only [hr, decide_eq_true_eq]; exact fun h => hta h.symm),
          ih hnd2 t]
        simp [List.mem_cons, hta]

/-- Claim C1.  For every distinct trait value in the input, the trait loop
emits exactly one result when at least one of the trait's rows has a
non-null normalized effect, its observed PRS being the sum of dosage
(missing treated as 0) times effect over those rows, and emits nothing for
the trait when no such row remains. -/
theorem prs_emitted_once_per_trait (nSim : ℕ) (draws : String → ℕ → ℕ → Fin 3)
    (prev : String → Option ℝ) (rows : List ProcRow) (t : String)
    (ht : some t ∈ rows.map ProcRow.trait) :
    (usableRows rows t ≠ [] →
      ∃ res, (estimateAll nSim draws prev rows).filter
          (fun r => decide (r.trait = t)) = [res] ∧
        res.PRS_indiv =
          ((usableRows rows t).map fun r => r.dosage.getD 0 * r.effect.getD 0).sum) ∧
    (usableRows rows t = [] →
      (estimateAll nSim draws prev rows).filter (fun r => decide (r.trait = t)) = []) := by
  have hmem : t ∈ distinctTraits rows := by
    rw [distinctTraits, List.mem_dedup, List.mem_filterMap]
    obtain ⟨r, hr, htr⟩ := List.mem_map.mp ht
    exact ⟨r, hr, htr⟩
  have hg : ∀ t' r, estimateTrait nSim (draws t') (prev t') rows t' = some r →
      r.trait = t' := by
    intro t' r h
    obtain ⟨-, hres⟩ := (estimateTrait_some_iff nSim (draws t') (prev t') rows t' r).mp h
    rw [hres]
    exact mkResult_trait _ _ _ _ _
  have key := filterMap_filter_trait _ hg (distinctTraits rows)
    (List.nodup_dedup _) t
  rw [estimateAll]
  constructor
  · intro hne
    rw [key, if_pos hmem]
    have hsome : estimateTrait nSim (draws t) (prev t) rows t =
        some (mkResult nSim (draws t) (prev t) t (usableRows rows t)) :=
      (estimateTrait_some_iff nSim (draws t) (prev t) rows t _).mpr ⟨hne, rfl⟩
    rw [hsome]
    exact ⟨_, rfl, rfl⟩
  · intro hemp
    rw [key, if_pos hmem]
    have hnone : estimateTrait nSim (draws t) (prev t) rows t = none := by
      rw [estimateTrait, if_pos (by simp [hemp])]
    rw [hnone]
    rfl

/-- Witness for claim C1 on a one-row table. -/
theorem prs_emitted_once_per_trait_witness :
    ∃ res, (estimateAll 4 (fun _ _ _ => (0 : Fin 3)) (fun _ => none) rowsW1).filter
        (fun r => decide (r.trait = "gout")) = [res] ∧
      res.PRS_indiv =
        ((usableRows rowsW1 "gout").map fun r => r.dosage.getD 0 * r.effect.getD 0).sum :=
  (prs_emitted_once_per_trait 4 (fun _ _ _ => (0 : Fin 3)) (fun _ => none) rowsW1
    "gout" (by simp [rowsW1])).1 (by simp [usableRows, traitRows, rowsW1])

lemma simScores_length (nSim : ℕ) (draws : ℕ → ℕ → Fin 3) (effs : List ℝ) :
    (simScores nSim draws effs).length = nSim := by
  simp [simScores]

lemma listSd_nonneg (xs : List ℝ) : 0 ≤ listSd xs := Real.sqrt_nonneg _

lemma percentileVal_bounds (xs : List ℝ) (obs : ℝ) :
    0 ≤ percentileVal xs obs ∧ percentileVal xs obs ≤ 100 := by
  rw [percentileVal]
  rcases eq_or_ne xs.length 0 with h | h
  · simp [h]
  · have hlpos : 0 < (xs.length : ℝ) := by
      have := Nat.pos_of_ne_zero h
      exact_mod_cast this
    constructor
    · positivity
    · rw [div_le_iff₀ hlpos]
      have hc : (xs.countP fun x => decide (x < obs)) ≤ xs.length :=
        List.countP_le_length _
      have hc2 : ((xs.countP fun x => decide (x < obs) : ℕ) : ℝ) ≤ (xs.length : ℝ) :=
        Nat.cast_le.mpr hc
      nlinarith

lemma mkResult_PRS (nSim : ℕ) (draws : ℕ → ℕ → Fin 3) (prev : Option ℝ)
    (t : String) (sub : List ProcRow) :
    (mkResult nSim draws prev t sub).PRS_indiv = observedPRS sub := rfl

lemma mkResult_percentile (nSim : ℕ) (draws : ℕ → ℕ → Fin 3) (prev : Option ℝ)
    (t : String) (sub : List ProcRow) :
    (mkResult nSim draws prev t sub).percentile =
      if (sub.filter fun r => r.raf.isSome && r.effect.isSome).isEmpty then none
      else some (percentileVal
        (simScores nSim draws
          ((sub.filter fun r => r.raf.isSome && r.effect.isSome).map
            fun r => r.effect.getD 0))
        (observedPRS sub)) := rfl

lemma mkResult_sim_mean (nSim : ℕ) (draws : ℕ → ℕ → Fin 3) (prev : Option ℝ)
    (t : String) (sub : List ProcRow) :
    (mkResult nSim draws prev t sub).sim_mean =
      if (sub.filter fun r => r.raf.isSome && r.effect.isSome).isEmpty then none
      else some (listMean
        (simScores nSim draws
          ((sub.filter fun r => r.raf.isSome && r.effect.isSome).map
            fun r => r.effect.getD 0))) := rfl

lemma mkResult_sim_sd (nSim : ℕ) (draws : ℕ → ℕ → Fin 3) (prev : Option ℝ)
    (t : String) (sub : List ProcRow) :
    (mkResult nSim draws prev t sub).sim_sd =
      if (sub.filter fun r => r.raf.isSome && r.effect.isSome).isEmpty then none
      else some (listSd
        (simScores nSim draws
          ((sub.filter fun r => r.raf.isSome && r.effect.isSome).map
            fun r => r.effect.getD 0))) := rfl

lemma mkResult_zscore (nSim : ℕ) (draws : ℕ → ℕ → Fin 3) (prev : Option ℝ)
    (t : String) (sub : List ProcRow) :
    (mkResult nSim draws prev t sub).zscore =
      if (sub.filter fun r => r.raf.isSome && r.effect.isSome).isEmpty then none
      else if listSd
          (simScores nSim draws
            ((sub.filter fun r => r.raf.isSome && r.effect.isSome).map
              fun r => r.effect.getD 0)) > 0 then
        some ((observedPRS sub -
          listMean (simScores nSim draws
            ((sub.filter fun r => r.raf.isSome && r.effect.isSome).map
              fun r => r.effect.getD 0))) /
          listSd (simScores nSim draws
            ((sub.filter fun r => r.raf.isSome && r.effect.isSome).map
              fun r => r.effect.getD 0)))
      else none := rfl

lemma mkResult_n_sim_used (nSim : ℕ) (draws : ℕ → ℕ → Fin 3) (prev : Option ℝ)
    (t : String) (sub : List ProcRow) :
    (mkResult nSim draws prev t sub).n_sim_used =
      if (sub.filter fun r => r.raf.isSome && r.effect.isSome).isEmpty then 0
      else (sub.filter fun r => r.raf.isSome && r.effect.isSome).length := rfl

lemma simRows_eq_filter (rows : List ProcRow) (t : String) :
    simRows rows t =
      (usableRows rows t).filter fun r => r.raf.isSome && r.effect.isSome := rfl

/-- Claim C2.  When some row of the trait has both a usable allele
frequency and a normalized effect, the percentile is 100 times the count of
simulated trials strictly below the observed PRS divided by the number of
trials, hence lies in [0,100], and the z-score is null exactly when the
simulated sample standard deviation is 0; with no usable allele frequency
the percentile, z-score, simulated mean and stddev are all null and the
simulated-SNP count is 0. -/
theorem percentile_zscore_spec (nSim : ℕ) (draws : ℕ → ℕ → Fin 3)
    (prev : Option ℝ) (rows : List ProcRow) (t : String) (res : TraitResult)
    (h : estimateTrait nSim draws prev rows t = some res) :
    (simRows rows t ≠ [] →
      ∃ pct, res.percentile = some pct ∧
        pct = 100 * ((simScores nSim draws
            ((simRows rows t).map fun r => r.effect.getD 0)).countP
            (fun x => decide (x < res.PRS_indiv)) : ℝ) / (nSim : ℝ) ∧
        0 ≤ pct ∧ pct ≤ 100 ∧
        (res.zscore = none ↔ res.sim_sd = some 0)) ∧
    (simRows rows t = [] →
      res.percentile = none ∧ res.zscore = none ∧ res.sim_mean = none ∧
        res.sim_sd = none ∧ res.n_sim_used = 0) := by
  obtain ⟨hne, hres⟩ :=
    (estimateTrait_some_iff nSim draws prev rows t res).mp h
  subst hres
  rw [simRows_eq_filter]
  constructor
  · intro hsne
    have hEmp : ¬((usableRows rows t).filter
        fun r => r.raf.isSome && r.effect.isSome).isEmpty := by
      intro hI
      exact hsne (List.isEmpty_iff.mp hI)
    refine ⟨percentileVal
      (simScores nSim draws
        (((usableRows rows t).filter fun r => r.raf.isSome && r.effect.isSome).map
          fun r => r.effect.getD 0))
      (observedPRS (usableRows rows t)), ?_, ?_, ?_, ?_, ?_⟩
    · rw [mkResult_percentile, if_neg hEmp]
    · rw [percentileVal, simScores_length, mkResult_PRS]
    · exact (percentileVal_bounds _ _).1
    · exact (percentileVal_bounds _ _).2
    · rw [mkResult_zscore, mkResult_sim_sd, if_neg hEmp, if_neg hEmp]
      by_cases hsd : listSd
          (simScores nSim draws
            (((usableRows rows t).filter fun r => r.raf.isSome && r.effect.isSome).map
              fun r => r.effect.getD 0)) > 0
      · rw [if_pos hsd]
        constructor
        · intro hf
          exact absurd hf (Option.some_ne_none _)
        · intro hs
          exact absurd (Option.some.inj hs) (ne_of_gt hsd)
      · rw [if_neg hsd]
        have h0 := le_antisymm (not_lt.mp hsd) (listSd_nonneg _)
        rw [h0]
        exact iff_of_true rfl rfl
  · intro hsemp
    have hEmp : ((usableRows rows t).filter
        fun r => r.raf.isSome && r.effect.isSome).isEmpty :=
      List.isEmpty_iff.mpr hsemp
    rw [mkResult_percentile, mkResult_zscore, mkResult_sim_mean, mkResult_sim_sd,
      mkResult_n_sim_used, if_pos hEmp, if_pos hEmp, if_pos hEmp, if_pos hEmp,
      if_pos hEmp]
    exact ⟨rfl, rfl, rfl, rfl, rfl⟩

/-- Witness for claim C2 on a one-row table with a usable allele
frequency. -/
theorem percentile_zscore_spec_witness :
    ∃ pct,
      (mkResult 4 (fun _ _ => (0 : Fin 3)) none "gout"
          (usableRows rowsW2 "gout")).percentile = some pct ∧
      pct = 100 * ((simScores 4 (fun _ _ => (0 : Fin 3))
          ((simRows rowsW2 "gout").map fun r => r.effect.getD 0)).countP
          (fun x => decide (x <
            (mkResult 4 (fun _ _ => (0 : Fin 3)) none "gout"
              (usableRows rowsW2 "gout")).PRS_indiv)) : ℝ) / (4 : ℝ) ∧
      0 ≤ pct ∧ pct ≤ 100 ∧
      ((mkResult 4 (fun _ _ => (0 : Fin 3)) none "gout"
          (usableRows rowsW2 "gout")).zscore = none ↔
        (mkResult 4 (fun _ _ => (0 : Fin 3)) none "gout"
          (usableRows rowsW2 "gout")).sim_sd = some 0) :=
  (percentile_zscore_spec 4 (fun _ _ => (0 : Fin 3)) none rowsW2 "gout"
      (mkResult 4 (fun _ _ => (0 : Fin 3)) none "gout" (usableRows rowsW2 "gout"))
      ((estimateTrait_some_iff 4 (fun _ _ => (0 : Fin 3)) none rowsW2 "gout"
          _).mpr
        ⟨by simp [usableRows, traitRows, rowsW2], rfl⟩)).1
    (by simp [simRows, usableRows, traitRows, rowsW2])

/-- Claim C7, amended.  A candidate row reaches the Ranker's input exactly
when its trait name passes the source's keyword filter (substring match of
the fixed keyword list against the normalized trait name) and the selection
mask holds: interpretation in the keep set, or percentile (null defaulted
to -1) at least 75, or absolute probability (null defaulted to 0) at least
0.05.  (The unamended claim describes the keyword test as a plain
case-insensitive substring match on the raw name; see the
counterexample.) -/
theorem ranked_selection_iff (results : List CandRow) (r : CandRow) :
    r ∈ selectedRows (diseaseCandidates results) ↔
      r ∈ results ∧ trait_is_disease (some r.trait) = true ∧
        ((INTERPRET_KEEP.map String.toLower).contains r.interpretation.toLower =
            true ∨
          r.percentile.getD (-1) ≥ (75 : ℚ) ∨
          r.absolute_probability.getD 0 ≥ (1 / 20 : ℚ)) := by
  rw [selectedRows, diseaseCandidates]
  simp only [List.mem_filter, keepRow, Bool.or_eq_true, decide_eq_true_eq,
    and_assoc]
  tauto

/-- Counterexample to claim C7 as stated: the trait name "Non-alcoholic"
contains the keyword "non-alcoholic" as a case-insensitive substring and
has percentile 99, yet the pipeline's normalized matching rejects it, so it
never reaches the Ranked output. -/
theorem ranked_selection_counterexample :
    claimKeywordMatch candNonDisease.trait = true ∧
    keepRow candNonDisease = true ∧
    selectedRows (diseaseCandidates [candNonDisease]) = [] := by
  refine ⟨by decide, ?_, ?_⟩
  · simp [keepRow, candNonDisease]
    norm_num
  · have hnd : trait_is_disease (some candNonDisease.trait) = false := by decide
    simp [selectedRows, diseaseCandidates, hnd]

/-- Witness instantiating the amended claim C7 at a concrete kept row. -/
theorem ranked_selection_iff_witness :
    candW10 ∈ selectedRows (diseaseCandidates [candW10]) ↔
      candW10 ∈ [candW10] ∧ trait_is_disease (some candW10.trait) = true ∧
        ((INTERPRET_KEEP.map String.toLower).contains
            candW10.interpretation.toLower = true ∨
          candW10.percentile.getD (-1) ≥ (75 : ℚ) ∨
          candW10.absolute_probability.getD 0 ≥ (1 / 20 : ℚ)) :=
  ranked_selection_iff [candW10] candW10

lemma mem_enumFrom_snd {α : Type u_1} {p : ℕ × α} :
    ∀ {l : List α} {n : ℕ}, p ∈ l.enumFrom n → p.2 ∈ l := by
  intro l
  induction l with
  | nil => intro n h; cases h
  | cons a l ih =>
    intro n h
    rw [List.enumFrom_cons] at h
    rcases List.mem_cons.mp h with h1 | h2
    · rw [h1]
      exact List.mem_cons_self a l
    · exact List.mem_cons_of_mem _ (ih h2)

lemma pairwise_enumFrom {α : Type u_1} (R : α → α → Prop) :
    ∀ (l : List α) (n : ℕ), l.Pairwise R →
      (l.enumFrom n).Pairwise fun a b => R a.2 b.2 := by
  intro l
  induction l with
  | nil => intro n _; simp
  | cons a l ih =>
    intro n hp
    rw [List.enumFrom_cons]
    obtain ⟨hhead, htail⟩ := List.pairwise_cons.mp hp
    refine List.Pairwise.cons ?_ (ih (n + 1) htail)
    intro b hb
    exact hhead b.2 (mem_enumFrom_snd hb)

/-- Claim C8.  The ranked output assigns ranks 1..N positionally (with N
the number of selected diseases), its composite scores are non-increasing
along the list, and every entry's composite score is the formula with
percentile defaulted to 50 and absolute probability defaulted to 0. -/
theorem ranker_scores_and_ranks (selected : List CandRow) :
    (rankDiseases selected).map RankedEntry.rank =
      (List.range selected.length).map (· + 1) ∧
    (rankDiseases selected).Pairwise (fun a b => b.risk_score ≤ a.risk_score) ∧
    ∀ e ∈ rankDiseases selected,
      e.risk_score = (e.row.percentile.getD 50 - 50) / 10 +
        10 * e.row.absolute_probability.getD 0 := by
  have hperm :
      ((selected.map fun r => (r, score_row r)).mergeSort
        fun a b => decide (b.2 ≤ a.2)).Perm (selected.map fun r => (r, score_row r)) :=
    List.mergeSort_perm _ _
  have hlen :
      ((selected.map fun r => (r, score_row r)).mergeSort
        fun a b => decide (b.2 ≤ a.2)).length = selected.length := by
    rw [hperm.length_eq, List.length_map]
  refine ⟨?_, ?_, ?_⟩
  · rw [rankDiseases, List.map_map]
    have h1 : (RankedEntry.rank ∘ fun p : ℕ × (CandRow × ℚ) =>
        ({ row := p.2.1, risk_score := p.2.2, rank := p.1 + 1 } : RankedEntry)) =
        (fun n => n + 1) ∘ Prod.fst := rfl
    rw [h1, ← List.map_map, List.enum_map_fst, hlen]
  · have hsortP :
        (((selected.map fun r => (r, score_row r)).mergeSort
          fun a b => decide (b.2 ≤ a.2)).Pairwise
          fun a b => (fun x y : CandRow × ℚ => decide (y.2 ≤ x.2)) a b = true) :=
      List.sorted_mergeSort
        (fun a b c h1 h2 => by
          simp only [decide_eq_true_eq] at h1 h2 ⊢
          exact le_trans h2 h1)
        (fun a b => by
          rcases le_total b.2 a.2 with h | h <;> simp [h])
        (selected.map fun r => (r, score_row r))
    have hsortP2 :
        (((selected.map fun r => (r, score_row r)).mergeSort
          fun a b => decide (b.2 ≤ a.2)).Pairwise
          fun a b : CandRow × ℚ => b.2 ≤ a.2) :=
      hsortP.imp fun h => of_decide_eq_true h
    have henum := pairwise_enumFrom (fun a b : CandRow × ℚ => b.2 ≤ a.2) _ 0 hsortP2
    rw [rankDiseases, List.pairwise_map]
    exact henum.imp fun h => h
  · intro e he
    rw [rankDiseases] at he
    obtain ⟨p, hp, hpe⟩ := List.mem_map.mp he
    have hmem : p.2 ∈ (selected.map fun r => (r, score_row r)).mergeSort
        fun a b => decide (b.2 ≤ a.2) := mem_enumFrom_snd hp
    have hmem2 : p.2 ∈ selected.map fun r => (r, score_row r) :=
      hperm.mem_iff.mp hmem
    obtain ⟨r, hr, hpr⟩ := List.mem_map.mp hmem2
    rw [← hpe]
    show p.2.2 = (p.2.1.percentile.getD 50 - 50) / 10 +
      10 * p.2.1.absolute_probability.getD 0
    rw [← hpr]
    rfl

/-- Witness instantiating claim C8 on a concrete one-row selection. -/
theorem ranker_scores_and_ranks_witness :
    (rankDiseases [candW10]).map RankedEntry.rank =
      (List.range ([candW10] : List CandRow).length).map (· + 1) ∧
    (rankDiseases [candW10]).Pairwise (fun a b => b.risk_score ≤ a.risk_score) ∧
    ∀ e ∈ rankDiseases [candW10],
      e.risk_score = (e.row.percentile.getD 50 - 50) / 10 +
        10 * e.row.absolute_probability.getD 0 :=
  ranker_scores_and_ranks [candW10]

/-- Claim C9, amended.  The estimation run aborts with a configuration
error exactly when one of the four column-detection steps (genotype,
risk-allele, effect, trait) fails, each of which includes the source's
substring-based fallbacks; such an error is distinguishable from a run
completing with an empty result list.  (The unamended claim that absence of
all three named effect columns is fatal fails because of the fallback
search for any column name containing "or" or "beta"; see the
counterexample.) -/
theorem config_error_iff (cols : List String) (meshNonEmpty : Bool) (nSim : ℕ)
    (draws : String → ℕ → ℕ → Fin 3) (prev : String → Option ℝ)
    (rows : List ProcRow) :
    ((∃ msg, runEstimation cols meshNonEmpty nSim draws prev rows =
        Except.error msg) ↔
      (detectGenotypeCol cols = none ∨ detectRiskAlleleCol cols = none ∨
        detectEffectCol cols = none ∨ detectTraitCol cols meshNonEmpty = none)) ∧
    (∀ msg res, (Except.error msg : Except String (List TraitResult)) ≠
      Except.ok res) := by
  constructor
  · cases hg : detectGenotypeCol cols with
    | none => simp [runEstimation, hg]
    | some g =>
      cases hrk : detectRiskAlleleCol cols with
      | none => simp [runEstimation, hg, hrk]
      | some rk =>
        cases he : detectEffectCol cols with
        | none => simp [runEstimation, hg, hrk, he]
        | some ef =>
          cases htr : detectTraitCol cols meshNonEmpty with
          | none => simp [runEstimation, hg, hrk, he, htr]
          | some tr => simp [runEstimation, hg, hrk, he, htr]
  · intro msg res h
    cases h

/-- Counterexample to claim C9 as stated: a header list lacking all of
"OR or BETA", "OR" and "BETA" on which the run still completes (with an
empty result set for an empty table), because the fallback picks
"REPORTED GENE(S)" as the effect column. -/
theorem config_error_counterexample :
    ("OR or BETA" ∉ colsNoEffect ∧ "OR" ∉ colsNoEffect ∧
      "BETA" ∉ colsNoEffect) ∧
    runEstimation colsNoEffect true 0 (fun _ _ _ => (0 : Fin 3)) (fun _ => none)
      [] = Except.ok [] := by
  exact ⟨by decide, rfl⟩

/-- Witness instantiating the amended claim C9 on a concrete header list. -/
theorem config_error_iff_witness :
    ((∃ msg, runEstimation colsNoEffect true 0 (fun _ _ _ => (0 : Fin 3))
        (fun _ => none) [] = Except.error msg) ↔
      (detectGenotypeCol colsNoEffect = none ∨
        detectRiskAlleleCol colsNoEffect = none ∨
        detectEffectCol colsNoEffect = none ∨
        detectTraitCol colsNoEffect true = none)) ∧
    (∀ msg res, (Except.error msg : Except String (List TraitResult)) ≠
      Except.ok res) :=
  config_error_iff colsNoEffect true 0 (fun _ _ _ => (0 : Fin 3)) (fun _ => none) []

lemma finalizeEntries_error_propagates (subFor : CandRow → List SnpRow)
    (r : CandRow) (e : String) :
    ∀ selected : List CandRow, r ∈ selected →
      meshFromSub true (subFor r) = Except.error e →
      ∃ msg, finalizeEntries true subFor selected = Except.error msg := by
  intro selected
  induction selected with
  | nil => intro h; cases h
  | cons a rest ih =>
    intro hmem herr
    rcases List.mem_cons.mp hmem with h1 | h2
    · refine ⟨e, ?_⟩
      rw [h1] at herr
      simp [finalizeEntries, herr]
    · cases hma : meshFromSub true (subFor a) with
      | error e2 => exact ⟨e2, by simp [finalizeEntries, hma]⟩
      | ok m =>
        obtain ⟨msg, hmsg⟩ := ih h2 herr
        exact ⟨msg, by simp [finalizeEntries, hma, hmsg]⟩

/-- Claim C10.  For a selected trait whose retained top-effect SNP rows are
non-empty while the SNP table has a MESH_ID column, if every MESH_ID among
those rows is null, the mesh-id extraction raises IndexError and the whole
finalization run fails, instead of producing an entry with a null
disease-vocabulary id. -/
theorem mesh_extraction_fails_on_all_null (subFor : CandRow → List SnpRow)
    (selected : List CandRow) (r : CandRow) (hr : r ∈ selected)
    (hne : subFor r ≠ []) (hall : ∀ s ∈ subFor r, s.meshId = none) :
    meshFromSub true (subFor r) =
      Except.error "IndexError: index 0 is out of bounds for axis 0 with size 0" ∧
    ∃ msg, finalizeEntries true subFor selected = Except.error msg := by
  have hfm : (subFor r).filterMap SnpRow.meshId = [] :=
    List.filterMap_eq_nil_iff.mpr hall
  have hmesh : meshFromSub true (subFor r) =
      Except.error "IndexError: index 0 is out of bounds for axis 0 with size 0" := by
    rw [meshFromSub, if_pos (by simp [hne]), hfm]
  exact ⟨hmesh, finalizeEntries_error_propagates subFor r _ selected hr hmesh⟩

/-- Witness for claim C10 on a one-trait, one-SNP instance. -/
theorem mesh_extraction_fails_witness :
    meshFromSub true [snpW10] =
      Except.error "IndexError: index 0 is out of bounds for axis 0 with size 0" ∧
    ∃ msg, finalizeEntries true (fun _ => [snpW10]) [candW10] =
      Except.error msg :=
  mesh_extraction_fails_on_all_null (fun _ => [snpW10]) [candW10] candW10
    (by simp) (by simp) (by simp [snpW10])

end DNA2Diet
